import Mathlib

/-!
Verification of the query router and SQL-synthesis agent of the
TheNuPie_Chatbot repository (files `sql_agent.py` and `rag.py`).

The Python functions are shallowly embedded as executable Lean functions
over `List Char` (Python strings), with the fallible external
collaborators (language model, storage engine, retrieval service)
modelled as explicit `Except`-valued oracles.  SQLite's `LIMIT`-clause
semantics, which is external to the repository, is modelled as
truncation of the unbounded result list.
-/

/-! ### Character helpers -/

/-- The backtick character. -/
def btick : Char := Char.ofNat 96

/-- The double-quote character. -/
def dquote : Char := Char.ofNat 34

/-- Python `str.isspace` / `\s` over the ASCII range: space, tab,
newline, carriage return, vertical tab, form feed. -/
def pyIsSpace (c : Char) : Bool :=
  c = ' ' || c = '\t' || c = '\n' || c = '\r' || c = Char.ofNat 11 || c = Char.ofNat 12

/-- Python regex `\w` over the ASCII range: letters, digits, underscore. -/
def isWordChar (c : Char) : Bool :=
  c.isAlpha || c.isDigit || c = '_'

/-- Lower-case an entire string (Python `str.lower`, ASCII range). -/
def lowerStr (s : List Char) : List Char := s.map Char.toLower

/-! ### The SQL sanitizer, from `SQLAgent._clean_sql`

`re.sub(r"```sql|```", "", sql_text, flags=re.IGNORECASE)`: scan left to
right; at each position first try to match a fence with language tag
(6 characters, the tag case-insensitive), then a bare fence
(3 characters); on a match drop it and continue after it, otherwise keep
the character. -/

def stripFences : List Char → List Char
  | a :: b :: c :: d :: e :: f :: rest =>
    if a = btick ∧ b = btick ∧ c = btick ∧ d.toLower = 's' ∧ e.toLower = 'q' ∧ f.toLower = 'l' then
      stripFences rest
    else if a = btick ∧ b = btick ∧ c = btick then
      stripFences (d :: e :: f :: rest)
    else a :: stripFences (b :: c :: d :: e :: f :: rest)
  | a :: b :: c :: rest =>
    if a = btick ∧ b = btick ∧ c = btick then stripFences rest
    else a :: stripFences (b :: c :: rest)
  | a :: rest => a :: stripFences rest
  | [] => []

/-- Python `str.strip`, left half: drop leading whitespace. -/
def pyLStrip (s : List Char) : List Char := s.dropWhile pyIsSpace

/-- Python `str.strip`, right half: drop trailing whitespace. -/
def pyRStrip (s : List Char) : List Char := (s.reverse.dropWhile pyIsSpace).reverse

/-- Python `str.strip`: drop leading and trailing whitespace. -/
def pyStrip (s : List Char) : List Char := pyRStrip (pyLStrip s)

/-- Does the keyword end here, i.e. is the next character (if any) a
non-word character?  This is the trailing `\b` of
`re.search(r"\b(SELECT|WITH)\b", ..., re.IGNORECASE)`. -/
def boundaryAfter (s : List Char) : Bool :=
  match s.head? with
  | none => true
  | some c => !isWordChar c

/-- Does `\b(SELECT|WITH)\b` match at the start of `s` (the leading word
boundary being checked by the caller)? -/
def kwHere (s : List Char) : Bool :=
  (decide (lowerStr (s.take 6) = "select".toList) && boundaryAfter (s.drop 6)) ||
  (decide (lowerStr (s.take 4) = "with".toList) && boundaryAfter (s.drop 4))

/-- Leftmost-match search for `\b(SELECT|WITH)\b`: returns the suffix of
the string starting at the first match, if any.  `prevWord` records
whether the previous character was a word character (the leading `\b`). -/
def findKwSuffix (prevWord : Bool) : List Char → Option (List Char)
  | [] => none
  | c :: cs =>
    if !prevWord && kwHere (c :: cs) then some (c :: cs)
    else findKwSuffix (isWordChar c) cs

/-- `if match: clean = clean[match.start():]` — keep only the part of the
string from the first SELECT/WITH keyword on; if there is no match the
string is unchanged. -/
def cutPreamble (s : List Char) : List Char :=
  (findKwSuffix false s).getD s

/-- `clean.replace("`", '"')`. -/
def replaceTicks (s : List Char) : List Char :=
  s.map (fun c => if c = btick then dquote else c)

/-- `clean.rstrip(";")`: remove trailing semicolons (and only them). -/
def rstripSemis (s : List Char) : List Char :=
  (s.reverse.dropWhile (fun c => c = ';')).reverse

/-- `SQLAgent._clean_sql`, the composition of the four steps in source
order: fence removal and `strip()`, preamble cut, backtick replacement,
trailing-semicolon strip. -/
def clean_sql (s : List Char) : List Char :=
  rstripSemis (replaceTicks (cutPreamble (pyStrip (stripFences s))))

/-! ### The query executor, from `SQLAgent.ask`

`if "limit" not in sql_query.lower(): sql_query += " LIMIT 20"`, then the
query is run by the storage engine.  The engine's `LIMIT` semantics is
modelled: a query whose text ends in a `LIMIT n` clause yields the first
`n` rows of its unbounded result, and a query without one yields all of
them. -/

/-- The case-insensitive substring test `"limit" in sql_query.lower()`. -/
def hasLimitKw (s : List Char) : Bool :=
  decide ("limit".toList <:+: lowerStr s)

/-- `SQLAgent.ask`, row-cap step: append `" LIMIT 20"` when the query
contains no limit keyword. -/
def addLimit (s : List Char) : List Char :=
  if hasLimitKw s then s else s ++ " LIMIT 20".toList

/-- Numeric value of a digit string (most significant digit first). -/
def natOfDigitsAux : Nat → List Char → Nat
  | acc, [] => acc
  | acc, c :: cs => natOfDigitsAux (acc * 10 + (c.toNat - 48)) cs

/-- Numeric value of a digit string. -/
def natOfDigits (ds : List Char) : Nat := natOfDigitsAux 0 ds

/-- Is the next character (if any) a non-word character?  Used as the
word boundary in front of a trailing `LIMIT` clause. -/
def boundaryBefore (s : List Char) : Bool :=
  match s.head? with
  | none => true
  | some c => !isWordChar c

/-- The trailing digit run of the query text (reversed). -/
def trailingDigits (s : List Char) : List Char :=
  s.reverse.takeWhile Char.isDigit

/-- The reversed query text after the trailing digit run and the spaces
separating it from the keyword. -/
def beforeDigits (s : List Char) : List Char :=
  (s.reverse.drop (trailingDigits s).length).dropWhile (fun c => c = ' ')

/-- Modelled engine behaviour: extract the row bound of a query whose
text ends in `LIMIT n` (keyword case-insensitive, one or more spaces
before the number, a word boundary before the keyword). -/
def extractLimit (s : List Char) : Option Nat :=
  if (trailingDigits s).isEmpty then none
  else
    if lowerStr ((beforeDigits s).take 5) = "timil".toList
        ∧ boundaryBefore ((beforeDigits s).drop 5) = true then
      some (natOfDigits (trailingDigits s).reverse)
    else none

/-- Modelled engine execution: `db` is the unbounded row list denoted by
the query body; a trailing `LIMIT n` clause truncates it to `n` rows. -/
def runSql {α : Type} (db : List α) (s : List Char) : List α :=
  match extractLimit s with
  | some n => db.take n
  | none => db

/-- The executor of `SQLAgent.ask`: row-cap step followed by engine
execution. -/
def execQuery {α : Type} (db : List α) (s : List Char) : List α :=
  runSql db (addLimit s)

/-- The text of an explicit `LIMIT` clause with digit string `ds`. -/
def limitClause (ds : List Char) : List Char := " LIMIT ".toList ++ ds

/-! ### `SQLAgent.ask`, error containment

The language model (generation and summarization) and the storage engine
are fallible oracles; `.error ()` is a raised exception.  The whole body
of `ask` runs inside one `try`, whose `except` arm returns the fixed
error triple. -/

/-- The message of the `except` arm of `SQLAgent.ask`. -/
def errMsg : List Char := "Error executing query.".toList

/-- The source tag of the `except` arm of `SQLAgent.ask`. -/
def errTag : List Char := "Error".toList

/-- The message for an empty result set. -/
def noDataMsg : List Char := "No data found.".toList

/-- The source reported when no attached alias occurs in the query. -/
def unknownTag : List Char := "Unknown".toList

/-- The oracles `SQLAgent.ask` interacts with: the attached aliases, the
raw model generation for this question, the engine, the summarizer. -/
structure AskEnv (α : Type) where
  attached : List (List Char)
  genSql : Except Unit (List Char)
  runQ : List Char → Except Unit (List α)
  summarize : List α → Except Unit (List Char)

/-- The error state returned by the `except` arm of `SQLAgent.ask`. -/
def errTriple (α : Type) : List Char × List α × List Char :=
  (errMsg, [], errTag)

/-- `for alias in self.attached_dbs: if alias in sql_query: ...` — first
alias occurring as a substring of the query, else `"Unknown"`. -/
def findSource (attached : List (List Char)) (sql : List Char) : List Char :=
  match attached.find? (fun a => decide (a <:+: sql)) with
  | some a => a ++ ".db".toList
  | none => unknownTag

/-- `SQLAgent.ask`: generate (the raw output is stripped then cleaned),
attribute a source, cap the row count, execute, summarize; any oracle
failure anywhere in the pipeline yields the fixed error triple. -/
def sqlAgentAsk {α : Type} (env : AskEnv α) : List Char × List α × List Char :=
  match env.genSql with
  | .error _ => errTriple α
  | .ok raw =>
    let sql := clean_sql (pyStrip raw)
    let src := findSource env.attached sql
    match env.runQ (addLimit sql) with
    | .error _ => errTriple α
    | .ok rows =>
      if rows.isEmpty then (noDataMsg, [], src)
      else
        match env.summarize rows with
        | .error _ => errTriple α
        | .ok summ => (summ, rows, src)

/-! ### The schema introspector, from `SQLAgent._build_value_aware_schema_map`

The storage layer's answers are data: per attached alias the table list
read from `sqlite_master` (`none` when introspection of the alias raised
and was skipped), and per column the rows of the frequency query
`SELECT col, COUNT(*) GROUP BY col ORDER BY c DESC LIMIT 3` (`none` when
that query raised; a row's value is `none` for SQL NULL). -/

/-- One column: its name and the frequency-query result. -/
structure ColumnInfo where
  name : List Char
  freqRes : Option (List (Option (List Char)))
deriving DecidableEq

/-- One table: its name and its columns. -/
structure TableInfo where
  name : List Char
  cols : List ColumnInfo
deriving DecidableEq

/-- One attached database handle: its alias and its introspected tables. -/
structure DbInfo where
  dbAlias : List Char
  tables : Option (List TableInfo)
deriving DecidableEq

/-- `v[:15] + "..." if len(v) > 15 else v`. -/
def truncVal (v : List Char) : List Char :=
  if 15 < v.length then v.take 15 ++ "...".toList else v

/-- Python `sep.join(parts)`. -/
def joinSep (sep : List Char) : List (List Char) → List Char
  | [] => []
  | [x] => x
  | x :: y :: xs => x ++ sep ++ joinSep sep (y :: xs)

/-- The example-value annotation of one column: non-null values of the
frequency query, truncated, rendered as ` (e.g. v1, v2, v3)`; empty when
the query failed or returned no non-null value. -/
def exampleVals : Option (List (Option (List Char))) → List Char
  | none => []
  | some res =>
    let vals := res.filterMap id
    if vals.isEmpty then []
    else " (e.g. ".toList ++ joinSep ", ".toList (vals.map truncVal) ++ ")".toList

/-- One line of the COLUMNS block: `- name (e.g. ...)`. -/
def colDetail (c : ColumnInfo) : List Char :=
  "- ".toList ++ c.name ++ exampleVals c.freqRes

/-- The schema-map entry of one table. -/
def tableEntry (al : List Char) (t : TableInfo) : List Char :=
  "TABLE: `".toList ++ al ++ ".".toList ++ t.name ++ "`\nCOLUMNS:\n".toList
    ++ joinSep "\n".toList (t.cols.map colDetail)

/-- `table.startswith("sqlite_")`: system tables are skipped. -/
def isSystemTable (t : TableInfo) : Bool :=
  "sqlite_".toList.isPrefixOf t.name

/-- All entries contributed by one handle: none when its introspection
failed, else one entry per user table. -/
def dbEntries (db : DbInfo) : List (List Char) :=
  match db.tables with
  | none => []
  | some ts => (ts.filter (fun t => !isSystemTable t)).map (tableEntry db.dbAlias)

/-- The separator between entries. -/
def sepLine : List Char := "\n---------------------\n".toList

/-- The sentinel returned when no database is attached. -/
def noTablesMsg : List Char := "(No tables found)".toList

/-- `SQLAgent._build_value_aware_schema_map`: the sentinel when
`attached_dbs` is empty, else the joined entries of every attached
handle. -/
def build_value_aware_schema_map (dbs : List DbInfo) : List Char :=
  if dbs.isEmpty then noTablesMsg
  else joinSep sepLine (dbs.flatMap dbEntries)

/-- The schema map the agent is initialised with: `attached_dbs` holds
only the aliases of the external `docs/*.db` files attached by
`_attach_external_databases`; the anchor engine's own schema is never
iterated over, so the anchor argument is unused. -/
def agentSchemaMap (_anchor : DbInfo) (attached : List DbInfo) : List Char :=
  build_value_aware_schema_map attached

/-! ### The router, from `RAGPipeline` -/

/-- The keyword vocabulary of `RAGPipeline._is_sql_query`. -/
def sqlKeywords : List (List Char) :=
  ["total", "sum", "average", "count", "max", "min", "calculate", "value",
   "list", "table", "show me", "how many",
   "distribution", "breakdown", "percentage", "proportion", "ratio",
   "trend", "compare", "difference", "highest", "lowest", "rank",
   "top", "bottom", "common", "popular"].map String.toList

/-- `RAGPipeline._is_sql_query`: case-insensitive substring test against
the vocabulary. -/
def is_sql_query (q : List Char) : Bool :=
  sqlKeywords.any (fun kw => decide (kw <:+: lowerStr q))

/-- `re.sub(r'\s+', ' ', s)`: each maximal whitespace run becomes one
space.  `prevWs` records whether the previous character was part of a
run already replaced. -/
def collapseAux (prevWs : Bool) : List Char → List Char
  | [] => []
  | c :: cs =>
    if pyIsSpace c then
      if prevWs then collapseAux true cs else ' ' :: collapseAux true cs
    else c :: collapseAux false cs

/-- `re.sub(r'\s+', ' ', s)`. -/
def collapseWs (s : List Char) : List Char := collapseAux false s

/-- The ellipsis marker. -/
def ellipsis : List Char := "...".toList

/-- The excerpt of a Source Record of kind text, from `RAGPipeline.ask`:
`re.sub(r'\s+', ' ', d.page_content).strip()[:400] + "..."`. -/
def excerpt (content : List Char) : List Char :=
  (pyStrip (collapseWs content)).take 400 ++ ellipsis

/-- The not-found message, from `RAGPipeline.ask` (the apostrophe is
written by code point). -/
def notFoundBase : List Char :=
  "I couldn".toList ++ [Char.ofNat 39] ++ "t find relevant information in the documents".toList

/-- The complete not-found message; its tail depends only on whether the
SQL path was attempted first. -/
def notFoundMsg (usedSql : Bool) : List Char :=
  notFoundBase ++ (if usedSql then " (SQL also found no data).".toList else ".".toList)

/-- A Source Record: kind sql (origin database and raw rows) or kind
text (origin document and excerpt). -/
inductive SourceRec (α : Type) where
  | sql (source : List Char) (rows : List α)
  | txt (source : List Char) (content : List Char)
deriving DecidableEq

/-- Oracles of one `RAGPipeline.ask` run: the SQL agent's answer triple
for this question, the retrieval service's passages (an exception or a
list of (source, content) pairs), and the model's answer over the
retrieved context. -/
structure RouterEnv (α : Type) where
  sqlSummary : List Char
  sqlRows : List α
  sqlSource : List Char
  docs : Except Unit (List (List Char × List Char))
  ragAnswer : List Char

/-- `"error" in summary.lower() or "no data" in summary.lower()`. -/
def hasFailureMarker (summary : List Char) : Bool :=
  decide ("error".toList <:+: lowerStr summary) ||
  decide ("no data".toList <:+: lowerStr summary)

/-- The passages the retrieval path works with: a service failure
(`try ... except: docs = []`) is caught and treated as zero passages. -/
def docsOf {α : Type} (env : RouterEnv α) : List (List Char × List Char) :=
  match env.docs with
  | .error _ => []
  | .ok ds => ds

/-- The retrieval path of `RAGPipeline.ask`: zero passages give the
not-found message and no sources; otherwise the model's answer with one
text Source Record per passage. -/
def retrievalPath {α : Type} (env : RouterEnv α) (usedSql : Bool) :
    List Char × List (SourceRec α) :=
  if (docsOf env).isEmpty then (notFoundMsg usedSql, [])
  else (env.ragAnswer, (docsOf env).map (fun d => SourceRec.txt d.1 (excerpt d.2)))

/-- `RAGPipeline.ask`: route to the SQL agent when the keyword gate
fires; declare SQL success only for a non-empty row set with an
unflagged summary; otherwise fall back to the retrieval path. -/
def routerAsk {α : Type} (q : List Char) (env : RouterEnv α) :
    List Char × List (SourceRec α) :=
  if is_sql_query q then
    if !env.sqlRows.isEmpty && !hasFailureMarker env.sqlSummary then
      (env.sqlSummary, [SourceRec.sql env.sqlSource env.sqlRows])
    else retrievalPath env true
  else retrievalPath env false

/-! ### Helper lemmas about the sanitizer -/

theorem dropWhile_eq_self_of_head (p : Char → Bool) (l : List Char)
    (h : l.head?.all (fun c => !p c) = true) : l.dropWhile p = l := by
  cases l with
  | nil => rfl
  | cons c cs =>
    simp only [List.head?_cons, Option.all_some, Bool.not_eq_true'] at h
    simp [List.dropWhile_cons_of_neg, h]

theorem rstrip_getLast_all (p : Char → Bool) (l : List Char) :
    ((l.reverse.dropWhile p).reverse).getLast?.all (fun c => !p c) = true := by
  rw [List.getLast?_reverse]
  have h := List.head?_dropWhile_not p l.reverse
  cases hh : (l.reverse.dropWhile p).head? with
  | none => rfl
  | some x =>
    rw [hh] at h
    simp [Option.all_some, h]

theorem rstrip_eq_self_of_getLast (p : Char → Bool) (l : List Char)
    (h : l.getLast?.all (fun c => !p c) = true) :
    (l.reverse.dropWhile p).reverse = l := by
  rw [dropWhile_eq_self_of_head p l.reverse (by rw [List.head?_reverse]; exact h),
    List.reverse_reverse]

theorem stripFences_id (l : List Char) (h : btick ∉ l) : stripFences l = l := by
  induction l using stripFences.induct with
  | case1 a b c d e f rest h1 ih =>
    exact absurd (by simp [h1.1] : btick ∈ _) h
  | case2 a b c d e f rest h1 h2 ih =>
    exact absurd (by simp [h2.1] : btick ∈ _) h
  | case3 a b c d e f rest h1 h2 ih =>
    rw [stripFences, if_neg h1, if_neg h2]
    rw [ih (fun hm => h (List.mem_cons_of_mem _ hm))]
  | case4 a b c rest h0 h1 ih =>
    exact absurd (by simp [h1.1] : btick ∈ _) h
  | case5 a b c rest h0 h1 ih =>
    rw [stripFences]
    · rw [if_neg h1, ih (fun hm => h (List.mem_cons_of_mem _ hm))]
    · exact h0
  | case6 a rest hg1 hg2 ih =>
    rw [stripFences]
    · rw [ih (fun hm => h (List.mem_cons_of_mem _ hm))]
    · exact hg1
    · exact hg2
  | case7 => rfl

theorem findKwSuffix_suffix (b : Bool) (l r : List Char)
    (h : findKwSuffix b l = some r) : r <:+ l := by
  induction l generalizing b with
  | nil => simp [findKwSuffix] at h
  | cons c cs ih =>
    rw [findKwSuffix] at h
    by_cases hc : (!b && kwHere (c :: cs)) = true
    · rw [if_pos hc] at h
      cases h
      exact List.suffix_rfl
    · rw [if_neg hc] at h
      exact (ih _ h).trans (List.suffix_cons c cs)

theorem cutPreamble_suffix (s : List Char) : cutPreamble s <:+ s := by
  rw [cutPreamble]
  cases hf : findKwSuffix false s with
  | none => exact List.suffix_rfl
  | some r => exact findKwSuffix_suffix false s r hf

theorem cutPreamble_eq_self_of_kwHere (s : List Char) (h : kwHere s = true) :
    cutPreamble s = s := by
  cases s with
  | nil => rfl
  | cons c cs =>
    rw [cutPreamble, findKwSuffix, if_pos (by simp [h])]
    rfl

theorem replaceTicks_eq_self (s : List Char) (h : btick ∉ s) : replaceTicks s = s := by
  induction s with
  | nil => rfl
  | cons c cs ih =>
    have hc : ¬ c = btick := fun hcb => h (hcb ▸ List.mem_cons_self c cs)
    rw [replaceTicks, List.map_cons, if_neg hc]
    have := ih (fun hm => h (List.mem_cons_of_mem _ hm))
    rw [replaceTicks] at this
    rw [this]

theorem replaceTicks_all_no_btick (s : List Char) :
    (replaceTicks s).all (fun c => !(c = btick)) = true := by
  rw [List.all_eq_true]
  intro x hx
  rw [replaceTicks, List.mem_map] at hx
  obtain ⟨y, -, hy⟩ := hx
  by_cases hyb : y = btick
  · rw [if_pos hyb] at hy
    simp [← hy, dquote, btick]
  · rw [if_neg hyb] at hy
    simp [← hy, hyb]

theorem rstripSemis_all (p : Char → Bool) (s : List Char)
    (h : s.all p = true) : (rstripSemis s).all p = true := by
  rw [List.all_eq_true] at h ⊢
  intro x hx
  rw [rstripSemis, List.mem_reverse] at hx
  exact h x (List.mem_reverse.mp ((List.dropWhile_sublist _).mem hx))

/-! ### Claim theorems about the sanitizer -/

/-- Claim C9: the sanitizer removes fenced-code delimiters and language
tags and strips surrounding whitespace, keeps only the text from the
first SELECT/WITH keyword on (so its output is a suffix of that cleaned
text, and the whole input when no keyword occurs), replaces every
backtick by a double quote (no backtick survives), and strips trailing
statement terminators (the output never ends in a semicolon); in
particular the fenced input sanitizes to exactly `SELECT 1`. -/
theorem clean_sql_stages (s : List Char) :
    clean_sql ("```sql\nSELECT 1\n```".toList) = "SELECT 1".toList
  ∧ clean_sql s = rstripSemis (replaceTicks (cutPreamble (pyStrip (stripFences s))))
  ∧ cutPreamble (pyStrip (stripFences s)) <:+ pyStrip (stripFences s)
  ∧ (clean_sql s).all (fun c => !(c = btick)) = true
  ∧ (clean_sql s).getLast?.all (fun c => !(c = ';')) = true := by
  refine ⟨by decide, rfl, cutPreamble_suffix _, ?_, rstrip_getLast_all _ _⟩
  exact rstripSemis_all _ _ (replaceTicks_all_no_btick _)

/-- Claim C2 counterexample: the sanitizer does not enforce read-only,
single-statement form.  The two-statement input `SELECT 1; DROP TABLE t`
passes through unchanged: the output still contains the write operation
`DROP` and an interior statement separator `;`. -/
theorem clean_sql_not_readonly_cex :
    clean_sql ("SELECT 1; DROP TABLE t".toList) = "SELECT 1; DROP TABLE t".toList
  ∧ ("DROP".toList <:+: clean_sql ("SELECT 1; DROP TABLE t".toList))
  ∧ ([';'] <:+: clean_sql ("SELECT 1; DROP TABLE t".toList))
  ∧ decide ((clean_sql ("SELECT 1; DROP TABLE t".toList)).all
      (fun c => !(c = ';')) = true) = false := by
  refine ⟨by decide, by decide, by decide, by decide⟩

/-- Claim C2 (amended): the sanitizer only strips trailing statement
terminators — its output never ends in a semicolon — but it is a
best-effort heuristic, not a parser: write operations and interior
semicolons (further statements) can survive in its output, and the
executor is the actual safety boundary. -/
theorem clean_sql_no_trailing_semi (s : List Char) :
    (clean_sql s).getLast?.all (fun c => !(c = ';')) = true :=
  rstrip_getLast_all _ _

/-- Claim C8 counterexample: the sanitizer is not idempotent on its own
output: `SELECT 1 ;` sanitizes to `SELECT 1 ` (stripping the trailing
semicolon exposes a trailing space), and a second application also
removes that space. -/
theorem clean_sql_idem_cex :
    clean_sql ("SELECT 1 ;".toList) = "SELECT 1 ".toList
  ∧ clean_sql (clean_sql ("SELECT 1 ;".toList)) = "SELECT 1".toList
  ∧ decide (clean_sql (clean_sql ("SELECT 1 ;".toList))
      = clean_sql ("SELECT 1 ;".toList)) = false := by
  refine ⟨by decide, by decide, by decide⟩

/-- Claim C8 (amended): sanitizing an already-clean query — one that
starts with a SELECT/WITH keyword, contains no backtick, and neither
ends in whitespace nor in a semicolon — returns it unchanged.  (Full
idempotence fails only because stripping trailing semicolons can expose
trailing whitespace, which a second pass would remove.) -/
theorem clean_sql_idem_on_clean (s : List Char)
    (h1 : btick ∉ s) (h2 : kwHere s = true)
    (h3 : s.head?.all (fun c => !pyIsSpace c) = true)
    (h4 : s.getLast?.all (fun c => !pyIsSpace c && !(c = ';')) = true) :
    clean_sql s = s := by
  have h4a : s.getLast?.all (fun c => !pyIsSpace c) = true := by
    cases hh : s.getLast? with
    | none => rfl
    | some x =>
      rw [hh] at h4
      simp only [Option.all_some, Bool.and_eq_true] at h4
      simp [Option.all_some, h4.1]
  have h4b : s.getLast?.all (fun c => !(c = ';')) = true := by
    cases hh : s.getLast? with
    | none => rfl
    | some x =>
      rw [hh] at h4
      simp only [Option.all_some, Bool.and_eq_true] at h4
      simp [Option.all_some, h4.2]
  rw [clean_sql, stripFences_id s h1, pyStrip, pyLStrip,
    dropWhile_eq_self_of_head _ _ h3, pyRStrip,
    rstrip_eq_self_of_getLast _ _ h4a,
    cutPreamble_eq_self_of_kwHere s h2, replaceTicks_eq_self s h1, rstripSemis,
    rstrip_eq_self_of_getLast _ _ h4b]

/-- Claim C8 witness: the clean query `SELECT 1` is returned unchanged. -/
theorem clean_sql_idem_on_clean_w : clean_sql ("SELECT 1".toList) = "SELECT 1".toList :=
  clean_sql_idem_on_clean ("SELECT 1".toList) (by decide) (by decide) (by decide) (by decide)

/-! ### Helper lemmas about the executor -/

theorem reverse_append_default (s : List Char) :
    (s ++ " LIMIT 20".toList).reverse
      = '0' :: '2' :: ' ' :: 'T' :: 'I' :: 'M' :: 'I' :: 'L' :: ' ' :: s.reverse := by
  rw [List.reverse_append]
  rfl

theorem trailingDigits_append_default (s : List Char) :
    trailingDigits (s ++ " LIMIT 20".toList) = ['0', '2'] := by
  unfold trailingDigits
  rw [reverse_append_default]
  rfl

theorem beforeDigits_append_default (s : List Char) :
    beforeDigits (s ++ " LIMIT 20".toList)
      = 'T' :: 'I' :: 'M' :: 'I' :: 'L' :: ' ' :: s.reverse := by
  unfold beforeDigits
  rw [reverse_append_default, trailingDigits_append_default]
  rfl

theorem extractLimit_append_default (s : List Char) :
    extractLimit (s ++ " LIMIT 20".toList) = some 20 := by
  unfold extractLimit
  rw [trailingDigits_append_default, beforeDigits_append_default]
  rfl

theorem takeWhile_append_stop (p : Char → Bool) (l₁ : List Char) (c : Char)
    (l₂ : List Char) (h₁ : ∀ x ∈ l₁, p x = true) (hc : p c = false) :
    (l₁ ++ c :: l₂).takeWhile p = l₁ := by
  rw [List.takeWhile_append_of_pos h₁, List.takeWhile_cons_of_neg (by simp [hc]),
    List.append_nil]

theorem reverse_append_clause (body ds : List Char) :
    (body ++ limitClause ds).reverse
      = ds.reverse ++ (' ' :: 'T' :: 'I' :: 'M' :: 'I' :: 'L' :: ' ' :: body.reverse) := by
  rw [limitClause, List.reverse_append, List.reverse_append, List.append_assoc]
  rfl

theorem trailingDigits_append_clause (body ds : List Char)
    (hdig : ∀ c ∈ ds, c.isDigit = true) :
    trailingDigits (body ++ limitClause ds) = ds.reverse := by
  unfold trailingDigits
  rw [reverse_append_clause]
  exact takeWhile_append_stop _ _ _ _ (fun x hx => hdig x (List.mem_reverse.mp hx))
    (by decide)

theorem beforeDigits_append_clause (body ds : List Char)
    (hdig : ∀ c ∈ ds, c.isDigit = true) :
    beforeDigits (body ++ limitClause ds)
      = 'T' :: 'I' :: 'M' :: 'I' :: 'L' :: ' ' :: body.reverse := by
  unfold beforeDigits
  rw [reverse_append_clause, trailingDigits_append_clause body ds hdig, List.drop_left]
  rfl

theorem extractLimit_append_clause (body ds : List Char) (hne : ds ≠ [])
    (hdig : ∀ c ∈ ds, c.isDigit = true) :
    extractLimit (body ++ limitClause ds) = some (natOfDigits ds) := by
  have hemp : ds.reverse.isEmpty = false := by
    cases hds : ds.reverse with
    | nil => exact absurd (by simpa using congrArg List.reverse hds) hne
    | cons x xs => rfl
  unfold extractLimit
  rw [trailingDigits_append_clause body ds hdig, beforeDigits_append_clause body ds hdig,
    hemp, List.reverse_reverse]
  rfl

theorem hasLimitKw_append_clause (body ds : List Char) :
    hasLimitKw (body ++ limitClause ds) = true := by
  apply decide_eq_true
  rw [lowerStr, List.map_append]
  refine List.IsInfix.trans ?_ ((List.suffix_append (body.map Char.toLower) _).isInfix)
  exact ⟨[' '], ' ' :: ds.map Char.toLower, rfl⟩

/-! ### Claim theorem about the executor row cap -/

/-- Claim C1: a generated query containing no limit keyword
(case-insensitive) gets ` LIMIT 20` appended, so the executor returns
the first 20 rows of its unbounded result — never more than 20 rows; a
query carrying an explicit trailing `LIMIT N` clause with N ≤ 20 is
executed unchanged and returns exactly its own rows, at most N. -/
theorem executor_row_cap {α : Type} (db : List α) :
    (∀ s, hasLimitKw s = false →
      execQuery db s = db.take 20 ∧ (execQuery db s).length ≤ 20)
  ∧ (∀ body ds, ds ≠ [] → (∀ c ∈ ds, c.isDigit = true) → natOfDigits ds ≤ 20 →
      execQuery db (body ++ limitClause ds) = db.take (natOfDigits ds)
      ∧ (execQuery db (body ++ limitClause ds)).length ≤ natOfDigits ds) := by
  constructor
  · intro s hs
    have he : execQuery db s = db.take 20 := by
      rw [execQuery, addLimit, if_neg (by simp [hs]), runSql,
        extractLimit_append_default s]
    exact ⟨he, by rw [he]; exact db.length_take_le 20⟩
  · intro body ds hne hdig _
    have he : execQuery db (body ++ limitClause ds) = db.take (natOfDigits ds) := by
      rw [execQuery, addLimit, if_pos (hasLimitKw_append_clause body ds), runSql,
        extractLimit_append_clause body ds hne hdig]
    exact ⟨he, by rw [he]; exact db.length_take_le _⟩

/-- Claim C1 witness: on a 25-row result, a query without a limit
keyword is capped to 20 rows, and `... LIMIT 5` returns exactly 5. -/
theorem executor_row_cap_w :
    execQuery (List.range 25) ("SELECT a FROM t".toList) = (List.range 25).take 20
  ∧ execQuery (List.range 25) ("SELECT a FROM t".toList ++ limitClause ['5'])
      = (List.range 25).take (natOfDigits ['5']) := by
  refine ⟨((executor_row_cap (List.range 25)).1 _ (by decide)).1, ?_⟩
  exact ((executor_row_cap (List.range 25)).2 _ ['5'] (by decide) (by decide) (by decide)).1

/-! ### Claim theorems about `SQLAgent.ask` error containment -/

/-- A concrete environment whose generation oracle raises. -/
def envGenFail : AskEnv Nat :=
  ⟨[], Except.error (), fun _ => Except.ok [], fun _ => Except.ok []⟩

/-- Claim C5 counterexample: the error state carries the text
`Error executing query.` (with a trailing period), not the claimed exact
text `Error executing query`. -/
theorem ask_error_text_cex :
    sqlAgentAsk envGenFail = errTriple Nat
  ∧ (sqlAgentAsk envGenFail).1 = "Error executing query.".toList
  ∧ decide ((sqlAgentAsk envGenFail).1 = "Error executing query".toList) = false := by
  refine ⟨rfl, rfl, by decide⟩

/-- Claim C5 (amended): `SQLAgent.ask` is total over its oracles — a
failure of generation, of execution, or of summarization each surfaces
as the fixed triple `("Error executing query.", [], "Error")`: the fixed
error text (with trailing period), an empty row list, and the `Error`
source tag; no oracle failure escapes the operation. -/
theorem ask_error_contained {α : Type} (env : AskEnv α) :
    (env.genSql = Except.error () → sqlAgentAsk env = errTriple α)
  ∧ (∀ raw, env.genSql = Except.ok raw →
      env.runQ (addLimit (clean_sql (pyStrip raw))) = Except.error () →
      sqlAgentAsk env = errTriple α)
  ∧ (∀ raw rows, env.genSql = Except.ok raw →
      env.runQ (addLimit (clean_sql (pyStrip raw))) = Except.ok rows →
      rows.isEmpty = false → env.summarize rows = Except.error () →
      sqlAgentAsk env = errTriple α) := by
  refine ⟨?_, ?_, ?_⟩
  · intro hg
    rw [sqlAgentAsk, hg]
  · intro raw hg hr
    rw [sqlAgentAsk, hg]
    simp only [hr]
  · intro raw rows hg hr hne hs
    rw [sqlAgentAsk, hg]
    simp only [hr, hne, Bool.false_eq_true, if_false, hs]

/-- Claim C5 witness: at the concrete environment whose generation
oracle raises, `ask` returns the fixed error triple. -/
theorem ask_error_contained_w : sqlAgentAsk envGenFail = errTriple Nat :=
  (ask_error_contained envGenFail).1 rfl

/-! ### Claim theorems about the router -/

/-- Claim C4: for a question routed to the SQL path, the router declares
SQL success exactly when the row set is non-empty and the summary
carries no failure marker, returning the summary with one sql Source
Record; on empty rows or a flagged summary the result is exactly the
retrieval path's result — the SQL failure triple itself is never
returned. -/
theorem router_sql_evaluate {α : Type} (q : List Char) (env : RouterEnv α)
    (hq : is_sql_query q = true) :
    (env.sqlRows ≠ [] → hasFailureMarker env.sqlSummary = false →
      routerAsk q env = (env.sqlSummary, [SourceRec.sql env.sqlSource env.sqlRows]))
  ∧ (env.sqlRows = [] ∨ hasFailureMarker env.sqlSummary = true →
      routerAsk q env = retrievalPath env true) := by
  constructor
  · intro hrows hmark
    have hemp : env.sqlRows.isEmpty = false := by
      cases hr : env.sqlRows with
      | nil => exact absurd hr hrows
      | cons x xs => rfl
    rw [routerAsk, if_pos hq, if_pos (by rw [hemp, hmark]; rfl)]
  · intro h
    rw [routerAsk, if_pos hq, if_neg ?_]
    rcases h with h | h
    · rw [h]
      simp
    · rw [h]
      simp

/-- A concrete environment where the SQL agent succeeded. -/
def envSqlOk : RouterEnv Nat :=
  ⟨"two rows".toList, [3, 4], "grades".toList, Except.ok [], []⟩

/-- A concrete environment where the SQL agent found no rows. -/
def envSqlFail : RouterEnv Nat :=
  ⟨"No data found.".toList, [], "Unknown".toList, Except.ok [], []⟩

/-- Claim C4 witness: a keyword question with two rows and a clean
summary succeeds; the same question with empty rows falls back to the
retrieval path. -/
theorem router_sql_evaluate_w :
    routerAsk ("count of students".toList) envSqlOk
      = ("two rows".toList, [SourceRec.sql "grades".toList [3, 4]])
  ∧ routerAsk ("count of students".toList) envSqlFail = retrievalPath envSqlFail true := by
  refine ⟨(router_sql_evaluate _ envSqlOk (by decide)).1 (by decide) (by decide), ?_⟩
  exact (router_sql_evaluate _ envSqlFail (by decide)).2 (Or.inl rfl)

/-- Claim C7: a retrieval-service failure is handled exactly as zero
passages, and with zero passages the retrieval path terminates with the
fixed not-found message — whose text depends only on whether SQL was
attempted — and an empty source list. -/
theorem retrieval_empty_terminal {α : Type} (env env2 : RouterEnv α) (u : Bool)
    (h : env.docs = Except.error () ∨ env.docs = Except.ok []) :
    retrievalPath env u = (notFoundMsg u, [])
  ∧ retrievalPath { env2 with docs := Except.error () } u
      = retrievalPath { env2 with docs := Except.ok [] } u := by
  constructor
  · rcases h with h | h <;>
    · rw [retrievalPath, docsOf, h]
      rfl
  · rfl

/-- A concrete environment whose retrieval service raises. -/
def envDocsFail : RouterEnv Nat :=
  ⟨[], [], [], Except.error (), "ans".toList⟩

/-- Claim C7 witness: with a raising retrieval service after a failed
SQL attempt, the router returns the not-found message and no sources. -/
theorem retrieval_empty_terminal_w :
    retrievalPath envDocsFail true = (notFoundMsg true, []) :=
  (retrieval_empty_terminal envDocsFail envDocsFail true (Or.inl rfl)).1

/-! ### Whitespace-collapse invariants for excerpts -/

/-- No two adjacent whitespace characters occur in the string. -/
def noDoubleSpace : List Char → Bool
  | a :: b :: rest => (!(pyIsSpace a && pyIsSpace b)) && noDoubleSpace (b :: rest)
  | _ => true

theorem nds_tail (c : Char) (l : List Char)
    (h : noDoubleSpace (c :: l) = true) : noDoubleSpace l = true := by
  cases l with
  | nil => rfl
  | cons d r =>
    rw [noDoubleSpace, Bool.and_eq_true] at h
    exact h.2

theorem nds_append_left (l₁ l₂ : List Char)
    (h : noDoubleSpace (l₁ ++ l₂) = true) : noDoubleSpace l₁ = true := by
  induction l₁ with
  | nil => rfl
  | cons a l₁ ih =>
    cases l₁ with
    | nil => rfl
    | cons b l₁ =>
      rw [List.cons_append, List.cons_append] at h
      rw [noDoubleSpace, Bool.and_eq_true] at h ⊢
      exact ⟨h.1, ih (by rw [List.cons_append]; exact h.2)⟩

theorem nds_append_right (l₁ l₂ : List Char)
    (h : noDoubleSpace (l₁ ++ l₂) = true) : noDoubleSpace l₂ = true := by
  induction l₁ with
  | nil => exact h
  | cons a l₁ ih => exact ih (nds_tail a _ (by rw [← List.cons_append]; exact h))

theorem nds_infix_closure (l₁ l₂ : List Char) (hinf : l₁ <:+: l₂)
    (h : noDoubleSpace l₂ = true) : noDoubleSpace l₁ = true := by
  obtain ⟨u, v, huv⟩ := hinf
  rw [← huv, List.append_assoc] at h
  exact nds_append_left _ _ (nds_append_right _ _ h)

theorem nds_cons_of_nonspace (c : Char) (l : List Char)
    (hc : pyIsSpace c = false) (h : noDoubleSpace l = true) :
    noDoubleSpace (c :: l) = true := by
  cases l with
  | nil => rfl
  | cons d r =>
    rw [noDoubleSpace, Bool.and_eq_true]
    exact ⟨by rw [hc]; rfl, h⟩

theorem nds_cons_of_headok (c : Char) (l : List Char)
    (hl : ∀ d, l.head? = some d → pyIsSpace d = false)
    (h : noDoubleSpace l = true) : noDoubleSpace (c :: l) = true := by
  cases l with
  | nil => rfl
  | cons d r =>
    rw [noDoubleSpace, Bool.and_eq_true]
    refine ⟨?_, h⟩
    rw [hl d rfl, Bool.and_false]
    rfl

theorem head_collapseAux_true (l : List Char) :
    ∀ c, (collapseAux true l).head? = some c → pyIsSpace c = false := by
  induction l with
  | nil => intro c hc; cases hc
  | cons a rest ih =>
    intro c hc
    rw [collapseAux] at hc
    by_cases ha : pyIsSpace a = true
    · rw [if_pos ha] at hc
      exact ih c hc
    · rw [if_neg ha] at hc
      cases hc
      exact Bool.not_eq_true _ ▸ Bool.of_not_eq_true ha

theorem nds_collapseAux (l : List Char) :
    ∀ prev, noDoubleSpace (collapseAux prev l) = true := by
  induction l with
  | nil => intro prev; rfl
  | cons c cs ih =>
    intro prev
    rw [collapseAux]
    by_cases hc : pyIsSpace c = true
    · rw [if_pos hc]
      cases prev with
      | true => exact ih true
      | false =>
        rw [if_neg (by simp)]
        exact nds_cons_of_headok _ _ (head_collapseAux_true cs) (ih true)
    · rw [if_neg hc]
      exact nds_cons_of_nonspace _ _ (Bool.of_not_eq_true hc) (ih false)

theorem nds_append_of (l₁ l₂ : List Char)
    (h₁ : noDoubleSpace l₁ = true) (h₂ : noDoubleSpace l₂ = true)
    (hh : ∀ d, l₂.head? = some d → pyIsSpace d = false) :
    noDoubleSpace (l₁ ++ l₂) = true := by
  induction l₁ with
  | nil => exact h₂
  | cons a l₁ ih =>
    cases l₁ with
    | nil => exact nds_cons_of_headok a l₂ hh h₂
    | cons b l₁ =>
      rw [List.cons_append, List.cons_append, noDoubleSpace, Bool.and_eq_true]
      rw [noDoubleSpace, Bool.and_eq_true] at h₁
      exact ⟨h₁.1, by rw [← List.cons_append]; exact ih h₁.2⟩

theorem pyRStrip_prefix_self (l : List Char) : pyRStrip l <+: l := by
  rw [pyRStrip, ← List.reverse_suffix, List.reverse_reverse]
  exact List.dropWhile_suffix pyIsSpace

theorem pyStrip_infix_self (l : List Char) : pyStrip l <:+: l :=
  (pyRStrip_prefix_self (pyLStrip l)).isInfix.trans (List.dropWhile_suffix pyIsSpace).isInfix

/-! ### Claim theorems about the excerpt -/

/-- The claim's formula for the excerpt, following its words only:
collapse whitespace runs, cut to 400 characters, append the ellipsis —
with no removal of leading/trailing whitespace.  Kept for comparison
with `excerpt`, which embeds the code. -/
def excerptClaimed (content : List Char) : List Char :=
  (collapseWs content).take 400 ++ ellipsis

/-- Claim C10 counterexample: the code also strips leading/trailing
whitespace (`.strip()`) after collapsing, which the claimed formula
omits: on the passage ` a` the code yields `a...` while the claimed
formula yields ` a...`. -/
theorem excerpt_strip_cex :
    excerpt (" a".toList) = "a...".toList
  ∧ excerptClaimed (" a".toList) = " a...".toList
  ∧ decide (excerpt (" a".toList) = excerptClaimed (" a".toList)) = false := by
  refine ⟨by decide, by decide, by decide⟩

/-- Claim C10 (amended): the excerpt of a passage is the passage with
whitespace runs collapsed to single spaces and leading/trailing
whitespace removed, cut to at most 400 characters, then always suffixed
with `...` — so it always ends in the ellipsis, has length at most 403,
and never contains two adjacent whitespace characters. -/
theorem excerpt_spec (content : List Char) :
    excerpt content = (pyStrip (collapseWs content)).take 400 ++ ellipsis
  ∧ ellipsis <:+ excerpt content
  ∧ (excerpt content).length ≤ 403
  ∧ noDoubleSpace (excerpt content) = true := by
  refine ⟨rfl, List.suffix_append _ _, ?_, ?_⟩
  · rw [excerpt, List.length_append]
    have h := (pyStrip (collapseWs content)).length_take_le 400
    have he : ellipsis.length = 3 := rfl
    omega
  · rw [excerpt]
    have h1 : noDoubleSpace (collapseWs content) = true := nds_collapseAux content false
    have h2 : (pyStrip (collapseWs content)).take 400 <:+: collapseWs content :=
      (List.take_prefix _ _).isInfix.trans (pyStrip_infix_self _)
    refine nds_append_of _ _ (nds_infix_closure _ _ h2 h1) (by decide) ?_
    intro d hd
    cases hd
    rfl

/-! ### Helper lemmas about the schema map -/

theorem joinSep_infix_of_mem (sep x : List Char) (parts : List (List Char))
    (h : x ∈ parts) : x <:+: joinSep sep parts := by
  induction parts with
  | nil => cases h
  | cons y ys ih =>
    cases ys with
    | nil =>
      rw [List.mem_singleton.mp h]
      exact List.infix_rfl
    | cons z zs =>
      rcases List.mem_cons.mp h with rfl | hmem
      · rw [joinSep]
        exact ((x.prefix_append sep).trans ((x ++ sep).prefix_append _)).isInfix
      · rw [joinSep]
        exact (ih hmem).trans (List.suffix_append _ _).isInfix

/-! ### Claim theorems about the schema map -/

/-- The anchor database of a demonstration agent: it owns one user
table.  `attached_dbs` is empty, as when `docs/` holds no `*.db` file. -/
def anchorDemo : DbInfo :=
  ⟨"main".toList, some [⟨"people".toList, [⟨"id".toList, none⟩]⟩]⟩

/-- Claim C3 counterexample: the schema map is built only from the
external attached handles; the always-present anchor handle is not
introspected.  With a user table in the anchor and no external handle,
the map is the no-tables sentinel and contains no entry for the anchor's
table. -/
theorem schema_map_anchor_cex :
    agentSchemaMap anchorDemo [] = noTablesMsg
  ∧ decide (tableEntry "main".toList ⟨"people".toList, [⟨"id".toList, none⟩]⟩
      <:+: agentSchemaMap anchorDemo []) = false := by
  refine ⟨rfl, by decide⟩

/-- Claim C3 (amended): for the external attached handles (the anchor is
not introspected), the builder produces a single text in which every
successfully introspected user table of every attached database
contributes an entry (system `sqlite_` tables excluded); each entry
lists every column's detail line; per column the example values are the
non-null values among the at most 3 rows of the frequency query; and
each value is truncated to 15 characters plus an ellipsis marker when
longer than 15. -/
theorem schema_map_coverage (dbs : List DbInfo) (db : DbInfo)
    (ts : List TableInfo) (t : TableInfo)
    (hdb : db ∈ dbs) (hts : db.tables = some ts) (ht : t ∈ ts)
    (huser : isSystemTable t = false) :
    (tableEntry db.dbAlias t <:+: build_value_aware_schema_map dbs)
  ∧ (∀ c ∈ t.cols, colDetail c <:+: tableEntry db.dbAlias t)
  ∧ (∀ res : List (Option (List Char)), res.length ≤ 3 →
      (res.filterMap id).length ≤ 3)
  ∧ (∀ v : List Char, (truncVal v).length ≤ 18
      ∧ (15 < v.length → truncVal v = v.take 15 ++ ellipsis)) := by
  refine ⟨?_, ?_, ?_, ?_⟩
  · have hmem : tableEntry db.dbAlias t ∈ dbs.flatMap dbEntries := by
      refine List.mem_flatMap.mpr ⟨db, hdb, ?_⟩
      rw [dbEntries, hts]
      exact List.mem_map.mpr ⟨t, List.mem_filter.mpr ⟨ht, by rw [huser]; rfl⟩, rfl⟩
    have hne : dbs.isEmpty = false := by
      cases dbs with
      | nil => cases hdb
      | cons d ds => rfl
    rw [build_value_aware_schema_map, hne, if_neg (by simp)]
    exact joinSep_infix_of_mem _ _ _ hmem
  · intro c hc
    rw [tableEntry]
    refine (joinSep_infix_of_mem "\n".toList _ _
      (List.mem_map.mpr ⟨c, hc, rfl⟩)).trans ?_
    exact (List.suffix_append _ (joinSep "\n".toList (t.cols.map colDetail))).isInfix
  · intro res hres
    exact (List.length_filterMap_le _ _).trans hres
  · intro v
    constructor
    · by_cases hv : 15 < v.length
      · rw [truncVal, if_pos hv, List.length_append, List.length_take]
        have h3 : ("...".toList : List Char).length = 3 := rfl
        omega
      · rw [truncVal, if_neg hv]
        omega
    · intro hv
      rw [truncVal, if_pos hv]
      rfl

/-- A one-handle, one-table, one-column concrete database set. -/
def dbsDemo : List DbInfo :=
  [⟨"sales".toList, some [⟨"orders".toList,
    [⟨"city".toList, some [some "Karachi".toList, none]⟩]⟩]⟩]

/-- Claim C3 witness: the demonstration table's entry occurs in the
built schema map. -/
theorem schema_map_coverage_w :
    tableEntry "sales".toList
      ⟨"orders".toList, [⟨"city".toList, some [some "Karachi".toList, none]⟩]⟩
      <:+: build_value_aware_schema_map dbsDemo :=
  (schema_map_coverage dbsDemo
    ⟨"sales".toList, some [⟨"orders".toList,
      [⟨"city".toList, some [some "Karachi".toList, none]⟩]⟩]⟩
    [⟨"orders".toList, [⟨"city".toList, some [some "Karachi".toList, none]⟩]⟩]
    ⟨"orders".toList, [⟨"city".toList, some [some "Karachi".toList, none]⟩]⟩
    (by decide) rfl (by decide) (by decide)).1

/-- Claim C6 counterexample: with a database attached but holding no
user table, the builder returns the empty string, not the sentinel. -/
theorem schema_map_empty_string_cex :
    build_value_aware_schema_map [⟨"a".toList, some []⟩] = ([] : List Char)
  ∧ decide (build_value_aware_schema_map [⟨"a".toList, some []⟩] = noTablesMsg) = false := by
  refine ⟨rfl, by decide⟩

/-- Claim C6 (amended): the non-empty sentinel `(No tables found)` is
returned only when no database is attached at all; when handles are
attached but contribute no user-table entry, the builder returns the
empty string. -/
theorem schema_map_sentinel (dbs : List DbInfo) :
    (build_value_aware_schema_map [] = noTablesMsg ∧ noTablesMsg.isEmpty = false)
  ∧ (dbs.isEmpty = false → dbs.flatMap dbEntries = [] →
      build_value_aware_schema_map dbs = []) := by
  refine ⟨⟨rfl, rfl⟩, ?_⟩
  intro h1 h2
  rw [build_value_aware_schema_map, h1, if_neg (by simp), h2]
  rfl

/-- Claim C6 witness: one attached handle with zero tables gives the
empty string. -/
theorem schema_map_sentinel_w :
    build_value_aware_schema_map [⟨"b".toList, some []⟩] = [] :=
  (schema_map_sentinel [⟨"b".toList, some []⟩]).2 rfl rfl
